import Mathlib

/-!
Verification of the `video_namer` tool (`src/main.rs`): a shallow embedding of
the frame-scan pipeline (`extract_frames` with its drain closure
`receive_and_process_decoded_frames`), the color classifier
(`is_blue_dominant`), the episode matcher (`get_corrected_episode_name`), the
OCR line policy (`get_episode_name`), and the two stateful drivers
(`episode_name`, `rename_all`), together with theorems about them.

External collaborators (ffmpeg demux/decode, the scaler's pixel math, the OCR
models, the interactive prompt, and the filesystem) are modelled at their
interface boundary: decoded frames arrive as already-converted RGB24 byte
buffers, and per-file outcomes of external calls are inputs of the model.
-/

namespace VideoNamer

/-- Errors. The Rust code funnels every failure through `anyhow::Result`;
this inductive carries one constructor per distinct failure produced by the
code under verification.  `panicked` models a Rust `panic` (as caused by
`Option::unwrap` on `None`), which aborts the program and is not an
`anyhow` error value. -/
inductive Err where
  | convError
  | noFileName
  | noTextDetected
  | promptFailed
  | notFound
  | ioError (msg : String)
  | panicked (msg : String)
  | other (msg : String)
deriving DecidableEq, Repr

deriving instance DecidableEq for Except

/-- A raw RGB24 frame as handed to `is_blue_dominant`: the width and height
reported by the decoder and the plane-0 byte buffer (`frame.data(0)`),
row-major `r, g, b` samples.  This models the output of the bilinear scaler,
whose pixel math is external; every frame in the model is already the RGB24
conversion of the decoded frame. -/
structure RawFrame where
  width : Nat
  height : Nat
  data : List Nat
deriving DecidableEq, Repr

/-- An owned RGB image (`image::RgbImage`): dimensions plus the pixel grid as
`(r, g, b)` triples in row-major order. -/
structure RgbImage where
  width : Nat
  height : Nat
  pixels : List (Nat × Nat × Nat)
deriving DecidableEq, Repr

/-- Group the first `n` pixels (3 bytes each) out of a raw byte buffer. -/
def takePixels : Nat → List Nat → List (Nat × Nat × Nat)
  | 0, _ => []
  | n + 1, r :: g :: b :: rest => (r, g, b) :: takePixels n rest
  | _ + 1, _ => []

/-- Modelled from `image::ImageBuffer::from_raw` (external crate): the
construction succeeds iff the container holds at least
`width * height * 3` samples; a larger container is accepted and the excess
ignored (the crate documents failure only when the container is
"not big enough").  On success the image consists of the first
`width * height` pixel triples of the buffer. -/
def from_raw (width height : Nat) (data : List Nat) : Option RgbImage :=
  if width * height * 3 ≤ data.length then
    some ⟨width, height, takePixels (width * height) data⟩
  else
    none

/-- The per-pixel blue test from `is_blue_dominant`:
`b > 230 && r < 180 && g < 235`. -/
def isBluePixel (p : Nat × Nat × Nat) : Bool :=
  decide (230 < p.2.2) && decide (p.1 < 180) && decide (p.2.1 < 235)

/-- `is_blue_dominant` from `src/main.rs`: rebuild the frame as an owned
image (failing with a conversion error when that is impossible), count the
pixels passing the blue test, and return the image iff the blue fraction
strictly exceeds `0.8`.  The Rust code compares `f64` values
(`blue as f64 / total as f64 > 0.8`); since `blue ≤ total`, that comparison
agrees with the exact comparison `blue / total > 4/5` for every frame whose
pixel count is below 2^50 (the rounding slack of the division and of the
literal `0.8` is smaller than the least possible nonzero gap
`1 / (5 * total)` between the true fraction and `4/5`), and at `total = 0`
both yield a non-match.  The definition states the exact comparison by cross
multiplication; `blue_fraction_iff` below proves it equal to the strict
rational-fraction test. -/
def is_blue_dominant (frame : RawFrame) : Except Err (Option RgbImage) :=
  match from_raw frame.width frame.height frame.data with
  | none => .error .convError
  | some img =>
    let blue_pixels := (img.pixels.filter isBluePixel).length
    let total_pixels := img.pixels.length
    if 4 * total_pixels < 5 * blue_pixels then
      .ok (some img)
    else
      .ok none

/-- `true` iff `is_blue_dominant` yields a positive match on the frame. -/
def classifiesBlue (frame : RawFrame) : Bool :=
  match is_blue_dominant frame with
  | .ok (some _) => true
  | _ => false

/-- The sampling decision inside the drain loop:
`frame_index > 900 && frame_index % 30 == 0`. -/
def shouldSample (i : Nat) : Bool :=
  decide (900 < i) && decide (i % 30 = 0)

/-- A packet of the container: the index of the stream it belongs to and the
decoded frames the decoder emits (already scaled to RGB24) after this packet
is sent to it. -/
structure MediaPacket where
  streamIdx : Nat
  frames : List RawFrame
deriving DecidableEq, Repr

/-- A media input as seen by `extract_frames`: the selected video stream
index, the container's packets in container order, and the frames the
decoder still emits after `send_eof` (the flush phase). -/
structure MediaInput where
  videoIdx : Nat
  packets : List MediaPacket
  flushFrames : List RawFrame
deriving DecidableEq, Repr

/-- Observable outcome of a scan: the returned value, the final value of the
`frame_index` counter, and the list of frame indices at which the classifier
was invoked (the classification log; the Rust code has no such log, it is
instrumentation over the same control flow, and `extract_frames` below
projects it away). -/
structure ScanOut where
  res : Except Err (Option (RgbImage × Nat))
  idx : Nat
  log : List Nat
deriving DecidableEq, Repr

/-- The closure `receive_and_process_decoded_frames` of `extract_frames`:
drain the decoder's available frames; for each, when the sampling decision
holds for the current `frame_index`, scale and classify, returning the image
with its index on a positive classification (and propagating a classifier
error); otherwise bump `frame_index` and continue. -/
def receive_and_process_decoded_frames : Nat → List RawFrame → ScanOut
  | i, [] => ⟨.ok none, i, []⟩
  | i, f :: fs =>
    if shouldSample i = true then
      match is_blue_dominant f with
      | .error e => ⟨.error e, i, [i]⟩
      | .ok (some img) => ⟨.ok (some (img, i)), i, [i]⟩
      | .ok none =>
        let out := receive_and_process_decoded_frames (i + 1) fs
        ⟨out.res, out.idx, i :: out.log⟩
    else
      receive_and_process_decoded_frames (i + 1) fs

/-- Sequencing of scan phases: if the first phase ends without a match and
without an error, continue with the next phase from the reached
`frame_index`; a match or an error returns immediately (the
`if let Some(blue_frame) = ... { return ... }` / `?` pattern of the Rust
code). -/
def seqScan (out : ScanOut) (k : Nat → ScanOut) : ScanOut :=
  match out.res with
  | .ok none =>
    let out2 := k out.idx
    ⟨out2.res, out2.idx, out.log ++ out2.log⟩
  | _ => out

/-- The packet-feeding phase of `extract_frames`: iterate the container's
packets, skip packets of other streams, and for each packet of the selected
video stream send it to the decoder and drain. -/
def feedPackets (vidx : Nat) : Nat → List MediaPacket → ScanOut
  | i, [] => ⟨.ok none, i, []⟩
  | i, p :: ps =>
    if p.streamIdx = vidx then
      seqScan (receive_and_process_decoded_frames i p.frames)
        (fun j => feedPackets vidx j ps)
    else
      feedPackets vidx i ps

/-- The whole scan with its classification log: packet-feeding phase starting
at `frame_index = 0`, then `send_eof` and one more drain (the flush
phase). -/
def extractFramesT (m : MediaInput) : ScanOut :=
  seqScan (feedPackets m.videoIdx 0 m.packets)
    (fun j => receive_and_process_decoded_frames j m.flushFrames)

/-- `extract_frames` from `src/main.rs` (its value as seen by callers):
the first positively classified frame with its index, `none` when the stream
is exhausted, an error when classification fails.  Container opening,
stream-selection and decoder-construction failures abort before the loop and
are outside this model. -/
def extract_frames (m : MediaInput) : Except Err (Option (RgbImage × Nat)) :=
  (extractFramesT m).res

/-- The decoded frames contributed by the packets of the selected video
stream, in container order. -/
def packetFrames (vidx : Nat) (ps : List MediaPacket) : List RawFrame :=
  ((ps.filter (fun p => decide (p.streamIdx = vidx))).map
    MediaPacket.frames).flatten

/-- All decoded frames of a scan in decode order: the frames of the packets
belonging to the selected video stream, then the frames surfaced by the
flush. -/
def relevantFrames (m : MediaInput) : List RawFrame :=
  packetFrames m.videoIdx m.packets ++ m.flushFrames

/-- Levenshtein edit distance over character sequences, as computed by
`strsim::levenshtein` (external crate): the standard distance counting
single-character insertions, deletions and substitutions, on Unicode
scalar values. -/
def levenshtein (xs ys : List Char) : Nat :=
  match xs, ys with
  | [], ys => ys.length
  | xs, [] => xs.length
  | x :: xs, y :: ys =>
    if x = y then
      levenshtein xs ys
    else
      1 + min (levenshtein xs ys)
        (min (levenshtein (x :: xs) ys) (levenshtein xs (y :: ys)))
termination_by xs.length + ys.length
decreasing_by all_goals simp_wf <;> omega

/-- Rust's `Iterator::min_by_key` on a sequence with `Nat` keys: the first
element attaining the minimal key (a later element replaces the accumulator
only when its key is strictly smaller), `none` when the sequence is
empty. -/
def minByKey {α : Type} (f : α → Nat) : List α → Option α
  | [] => none
  | x :: xs => some (xs.foldl (fun acc y => if f y < f acc then y else acc) x)

/-- A catalog entry: the episode name and the season/episode label (CSV
column `season`, deserialized into `season_and_episode`). -/
structure Episode where
  name : String
  season_and_episode : String
deriving DecidableEq, Repr

/-- `get_corrected_episode_name` from `src/main.rs` (the parameter spelling
`candiate_name` is the source's): the catalog entry whose name has minimal
Levenshtein distance to the candidate, ties resolved to the first entry in
catalog order by `min_by_key`; `none` on an empty catalog. -/
def get_corrected_episode_name (candiate_name : String)
    (episodes : List Episode) : Option Episode :=
  minByKey (fun episode => levenshtein episode.name.data candiate_name.data)
    episodes

/-- The candidate lines retained by `get_episode_name`: the OCR engine's
recognized lines (`None` entries flattened away) whose UTF-8 byte length
exceeds 1 (Rust's `x.len() > 1` measures bytes). -/
def filteredLines (lineTexts : List (Option String)) : List String :=
  (lineTexts.filterMap id).filter (fun x => decide (1 < x.utf8ByteSize))

/-- `get_episode_name` from `src/main.rs`, with the OCR engine and the
interactive `Select` prompt modelled at the interface boundary: the
recognized lines arrive as the input `lineTexts` and `choose` is the prompt
(whose failure is the `?` on `prompt()`).  Zero retained lines fail with
NoTextDetected ("No text detected"), exactly one is returned directly,
several are passed to the prompt. -/
def get_episode_name (choose : List String → Except Err String)
    (lineTexts : List (Option String)) : Except Err String :=
  match filteredLines lineTexts with
  | [] => .error .noTextDetected
  | [text] => .ok text
  | options => choose options

/-- The per-episode key computed in `episode_name`:
`strsim::normalized_levenshtein(..) as usize`.  The crate returns an `f64`
similarity in `[0, 1]` that equals `1.0` exactly when the two strings are
equal, and the `as usize` cast truncates toward zero, so the key is 1 for
equal strings and 0 otherwise (exact for strings shorter than 2^53
characters; the spec itself flags this cast as a suspected defect). -/
def normalized_levenshtein_as_usize (a b : String) : Nat :=
  if a = b then 1 else 0

/-- Completed side effects of `episode_name`, in execution order: the
matched frame was written to the output path, OCR text extraction
completed, catalog matching completed. -/
inductive Ev where
  | savedFrame (path : String)
  | ranOcr
  | ranMatched
deriving DecidableEq, Repr

/-- Outcomes of the external calls `episode_name` makes, as inputs of the
model: the scan result for the given path, the result of `frame.save`, the
OCR/disambiguation result for the matched frame, and the catalog load. -/
structure EpisodeNameEnv where
  extractResult : Except Err (Option (RgbImage × Nat))
  saveResult : Except Err Unit
  ocrResult : Except Err String
  episodesResult : Except Err (List Episode)
deriving Repr

/-- `episode_name` from `src/main.rs`: scan the file; on a match save the
frame to `output`, run OCR, load the catalog and pick the entry minimizing
the (truncated normalized-Levenshtein) key, failing with NotFound ("No
episode found") on an empty catalog; on no match just return `Ok`.  The
result pairs the trace of completed side effects with the returned
value. -/
def episode_name (env : EpisodeNameEnv) (output : String) :
    List Ev × Except Err Unit :=
  match env.extractResult with
  | .error e => ([], .error e)
  | .ok none => ([], .ok ())
  | .ok (some _) =>
    match env.saveResult with
    | .error e => ([], .error e)
    | .ok _ =>
      match env.ocrResult with
      | .error e => ([.savedFrame output], .error e)
      | .ok name =>
        match env.episodesResult with
        | .error e => ([.savedFrame output, .ranOcr], .error e)
        | .ok episodes =>
          match minByKey
              (fun episode =>
                normalized_levenshtein_as_usize episode.name name)
              episodes with
          | none => ([.savedFrame output, .ranOcr], .error .notFound)
          | some _ => ([.savedFrame output, .ranOcr, .ranMatched], .ok ())

/-- One globbed file as `rename_all` sees it: its `file_name` (when it has
one) and the outcomes of the external calls made for it — the scan of the
file, the OCR/disambiguation on a matched frame, and the filesystem
rename. -/
structure BatchFile where
  filename : Option String
  extractResult : Except Err (Option (RgbImage × Nat))
  ocrResult : Except Err String
  renameResult : Except Err Unit
deriving Repr

/-- The loop body of `rename_all` for one file: resolve the file name and
scan; on a matched frame run OCR, match the OCR text against the catalog —
the `.unwrap()` of the source panics when the matcher returns `None` —
build the new name "Bluey - <season_and_episode> - <name>.mkv" and rename.
Returns the performed rename as `(old_name, new_name)`, `none` when no blue
frame was found, or the propagated error. -/
def processFile (episodes : List Episode) (f : BatchFile) :
    Except Err (Option (String × String)) :=
  match f.filename with
  | none => .error .noFileName
  | some filename =>
    match f.extractResult with
    | .error e => .error e
    | .ok none => .ok none
    | .ok (some _) =>
      match f.ocrResult with
      | .error e => .error e
      | .ok name =>
        match get_corrected_episode_name name episodes with
        | none => .error (.panicked ("called Option::unwrap() on a None value"))
        | some corrected =>
          let new_filename :=
            "Bluey - " ++ corrected.season_and_episode ++ " - " ++
              corrected.name ++ ".mkv"
          match f.renameResult with
          | .error e => .error e
          | .ok _ => .ok (some (filename, new_filename))

/-- `rename_all` from `src/main.rs`, after the catalog load and the glob
(both modelled as inputs): process the files in order; any error of the
loop body is propagated by the `?` operator (or a panic), ending the batch
immediately.  Returns the renames performed before the stop and the
terminating error, if any. -/
def rename_all (episodes : List Episode) :
    List BatchFile → List (String × String) × Option Err
  | [] => ([], none)
  | f :: fs =>
    match processFile episodes f with
    | .error e => ([], some e)
    | .ok none => rename_all episodes fs
    | .ok (some x) =>
      let out := rename_all episodes fs
      (x :: out.1, out.2)

/-! Concrete inputs used by witnesses and counterexamples. -/

/-- One solid blue RGB24 pixel. -/
def bluePix : List Nat := [0, 0, 255]

/-- One solid red RGB24 pixel. -/
def redPix : List Nat := [255, 0, 0]

/-- A 1-by-1 solid blue frame. -/
def blueFrame : RawFrame := ⟨1, 1, bluePix⟩

/-- A 1-by-1 solid red frame. -/
def redFrame : RawFrame := ⟨1, 1, redPix⟩

/-- `n` copies of a pixel's bytes in a row. -/
def repJoin (n : Nat) (p : List Nat) : List Nat := (List.replicate n p).flatten

/-- A 1000-pixel frame with exactly 800 qualifying (blue) pixels: 80.0%. -/
def frame800 : RawFrame := ⟨1000, 1, repJoin 800 bluePix ++ repJoin 200 redPix⟩

/-- A 1000-pixel frame with exactly 801 qualifying (blue) pixels: 80.1%. -/
def frame801 : RawFrame := ⟨1000, 1, repJoin 801 bluePix ++ repJoin 199 redPix⟩

/-- The owned image reconstructed from `frame801`. -/
def img801 : RgbImage :=
  ⟨1000, 1, List.replicate 801 (0, 0, 255) ++ List.replicate 199 (255, 0, 0)⟩

/-- A 1-by-1 frame whose buffer has one byte more than width * height * 3. -/
def frameExtra : RawFrame := ⟨1, 1, [0, 0, 255, 7]⟩

/-- The owned 1-by-1 blue image. -/
def imgTiny : RgbImage := ⟨1, 1, [(0, 0, 255)]⟩

/-- A small media input: an empty relevant packet, a packet of a foreign
stream, and one flush frame. -/
def mSmall : MediaInput := ⟨0, [⟨0, []⟩, ⟨1, [blueFrame]⟩], [blueFrame]⟩

/-- A media input whose video stream decodes to 900 red frames followed by
31 blue frames (all surfacing in the flush phase), so that frame 930 is the
first sampled blue frame. -/
def mC2 : MediaInput :=
  ⟨0, [], List.replicate 900 redFrame ++ List.replicate 31 blueFrame⟩

/-- A catalog entry. -/
def epSleepy : Episode := ⟨"Sleepytime", "S1E1"⟩

/-- A short-named catalog entry. -/
def epAB : Episode := ⟨"ab", "S1E1"⟩

/-- Another short-named catalog entry. -/
def epB : Episode := ⟨"b", "S1E2"⟩

/-- A successful scan outcome stub: a match at frame index 930. -/
def okMatch : Except Err (Option (RgbImage × Nat)) := .ok (some (imgTiny, 930))

/-- A batch file whose rename fails with an I/O error. -/
def fileBad : BatchFile :=
  ⟨some "bad.mp4", okMatch, .ok "Sleepytime", .error (.ioError "permission denied")⟩

/-- A batch file (an .mp4) that processes and renames successfully. -/
def fileGood : BatchFile := ⟨some "good.mp4", okMatch, .ok "Sleepytime", .ok ()⟩

/-- A batch file (an .avi) that processes and renames successfully. -/
def fileAvi : BatchFile := ⟨some "good.avi", okMatch, .ok "Sleepytime", .ok ()⟩

/-- A canned disambiguation strategy for witnesses. -/
def chooseCanned : List String → Except Err String := fun _ => .ok ("chosen")

/-- An `episode_name` environment whose OCR step fails after a successful
match and save. -/
def envOcrFail : EpisodeNameEnv :=
  ⟨okMatch, .ok (), .error .noTextDetected, .ok [epSleepy]⟩

/-- An `episode_name` environment with a successful match, save and OCR but
an empty catalog. -/
def envEmptyCat : EpisodeNameEnv :=
  ⟨okMatch, .ok (), .ok "Sleepytime", .ok []⟩

/-! Helper lemmas about the scan loop. -/

theorem seqScan_assoc (a : ScanOut) (k1 k2 : Nat → ScanOut) :
    seqScan (seqScan a k1) k2 = seqScan a (fun j => seqScan (k1 j) k2) := by
  unfold seqScan
  rcases a with ⟨r, i, log⟩
  cases r with
  | error e => rfl
  | ok o =>
    cases o with
    | some v => rfl
    | none =>
      cases hk : (k1 i).res with
      | error e => simp [hk]
      | ok o2 =>
        cases o2 with
        | some v => simp [hk]
        | none => simp [hk, List.append_assoc]

theorem rp_append (i : Nat) (xs ys : List RawFrame) :
    receive_and_process_decoded_frames i (xs ++ ys) =
      seqScan (receive_and_process_decoded_frames i xs)
        (fun j => receive_and_process_decoded_frames j ys) := by
  induction xs generalizing i with
  | nil => simp [receive_and_process_decoded_frames, seqScan]
  | cons f fs ih =>
    simp only [List.cons_append, receive_and_process_decoded_frames,
      List.append_eq]
    by_cases hs : shouldSample i = true
    · rw [if_pos hs, if_pos hs]
      cases hb : is_blue_dominant f with
      | error e => simp [seqScan]
      | ok o =>
        cases o with
        | some img => simp [seqScan]
        | none =>
          dsimp only
          rw [ih]
          unfold seqScan
          cases hr : (receive_and_process_decoded_frames (i + 1) fs).res with
          | error e => simp [hr]
          | ok o2 =>
            cases o2 with
            | some v => simp [hr]
            | none => simp [hr]
    · rw [if_neg hs, if_neg hs]
      exact ih (i + 1)

theorem feed_flatten (vidx : Nat) (ps : List MediaPacket) (i : Nat)
    (flush : List RawFrame) :
    seqScan (feedPackets vidx i ps)
        (fun j => receive_and_process_decoded_frames j flush) =
      receive_and_process_decoded_frames i (packetFrames vidx ps ++ flush) := by
  induction ps generalizing i with
  | nil =>
    simp [feedPackets, seqScan, packetFrames]
  | cons p ps ih =>
    by_cases hp : p.streamIdx = vidx
    · have hpf : packetFrames vidx (p :: ps) = p.frames ++ packetFrames vidx ps := by
        simp [packetFrames, List.filter_cons, hp]
      rw [hpf, List.append_assoc, rp_append]
      simp only [feedPackets]
      rw [if_pos hp, seqScan_assoc]
      have hk : (fun j => seqScan (feedPackets vidx j ps)
          (fun j2 => receive_and_process_decoded_frames j2 flush)) =
          (fun j => receive_and_process_decoded_frames j
            (packetFrames vidx ps ++ flush)) := by
        funext j
        exact ih j
      rw [hk]
    · have hpf : packetFrames vidx (p :: ps) = packetFrames vidx ps := by
        simp [packetFrames, List.filter_cons, hp]
      rw [hpf]
      simp only [feedPackets]
      rw [if_neg hp]
      exact ih i

theorem extract_linear (m : MediaInput) :
    extractFramesT m = receive_and_process_decoded_frames 0 (relevantFrames m) := by
  unfold extractFramesT relevantFrames
  exact feed_flatten m.videoIdx m.packets 0 m.flushFrames

theorem rp_idx_of_none (fs : List RawFrame) (i : Nat)
    (h : (receive_and_process_decoded_frames i fs).res = .ok none) :
    (receive_and_process_decoded_frames i fs).idx = i + fs.length := by
  induction fs generalizing i with
  | nil => simp [receive_and_process_decoded_frames]
  | cons f fs ih =>
    rw [receive_and_process_decoded_frames] at h ⊢
    by_cases hs : shouldSample i = true
    · rw [if_pos hs] at h ⊢
      cases hb : is_blue_dominant f with
      | error e => rw [hb] at h; simp at h
      | ok o =>
        cases o with
        | some img => rw [hb] at h; simp at h
        | none =>
          rw [hb] at h
          dsimp only at h ⊢
          rw [ih (i + 1) h]
          simp [Nat.add_comm, Nat.add_assoc, Nat.add_left_comm]
    · rw [if_neg hs] at h ⊢
      rw [ih (i + 1) h]
      simp [Nat.add_comm, Nat.add_assoc, Nat.add_left_comm]

theorem rp_log_props (fs : List RawFrame) (i : Nat) :
    (∀ x ∈ (receive_and_process_decoded_frames i fs).log,
      shouldSample x = true ∧ i ≤ x ∧ x < i + fs.length) ∧
    ((receive_and_process_decoded_frames i fs).log).Pairwise (· < ·) := by
  induction fs generalizing i with
  | nil => simp [receive_and_process_decoded_frames]
  | cons f fs ih
  =>
    rw [receive_and_process_decoded_frames]
    by_cases hs : shouldSample i = true
    · rw [if_pos hs]
      cases hb : is_blue_dominant f with
      | error e => simp [hs]
      | ok o =>
        cases o with
        | some img => simp [hs]
        | none =>
          dsimp only
          constructor
          · intro x hx
            rcases List.mem_cons.mp hx with rfl | hx2
            · exact ⟨hs, Nat.le_refl x, by simp⟩
            · rcases ((ih (i + 1)).1 x hx2) with ⟨h1, h2, h3⟩
              exact ⟨h1, by omega, by simp at h3 ⊢; omega⟩
          · refine List.pairwise_cons.mpr ⟨?_, (ih (i + 1)).2⟩
            intro x hx
            rcases ((ih (i + 1)).1 x hx) with ⟨_, h2, _⟩
            omega
    · rw [if_neg hs]
      constructor
      · intro x hx
        rcases ((ih (i + 1)).1 x hx) with ⟨h1, h2, h3⟩
        exact ⟨h1, by omega, by simp at h3 ⊢; omega⟩
      · exact (ih (i + 1)).2

theorem rp_match (fs : List RawFrame) (i : Nat) (img : RgbImage) (k : Nat)
    (h : (receive_and_process_decoded_frames i fs).res = .ok (some (img, k))) :
    k ∈ (receive_and_process_decoded_frames i fs).log ∧
    (∀ x ∈ (receive_and_process_decoded_frames i fs).log, x ≤ k) ∧
    i ≤ k ∧
    ∃ hk : k - i < fs.length,
      is_blue_dominant (fs.get ⟨k - i, hk⟩) = .ok (some img) := by
  induction fs generalizing i with
  | nil => simp [receive_and_process_decoded_frames] at h
  | cons f fs ih =>
    rw [receive_and_process_decoded_frames] at h ⊢
    by_cases hs : shouldSample i = true
    · rw [if_pos hs] at h ⊢
      cases hb : is_blue_dominant f with
      | error e => rw [hb] at h; simp at h
      | ok o =>
        cases o with
        | some img2 =>
          rw [hb] at h
          dsimp only at h ⊢
          have hik : img2 = img ∧ i = k := by
            have h2 := h
            simp only [Except.ok.injEq, Option.some.injEq, Prod.mk.injEq] at h2
            exact h2
          rcases hik with ⟨rfl, rfl⟩
          refine ⟨by simp, by simp, Nat.le_refl i, ?_⟩
          refine ⟨by simp [Nat.sub_self], ?_⟩
          simp [Nat.sub_self, hb]
        | none =>
          rw [hb] at h
          dsimp only at h ⊢
          rcases ih (i + 1) h with ⟨h1, h2, h3, hk, h4⟩
          have hki : i < k := by omega
          refine ⟨List.mem_cons_of_mem i h1, ?_, by omega, ?_⟩
          · intro x hx
            rcases List.mem_cons.mp hx with rfl | hx2
            · omega
            · exact h2 x hx2
          · have hsub : k - i = (k - (i + 1)) + 1 := by omega
            refine ⟨by simp; omega, ?_⟩
            have : (f :: fs).get ⟨k - i, by simp; omega⟩ =
                fs.get ⟨k - (i + 1), hk⟩ := by
              simp [hsub]
            rw [this]
            exact h4
    · rw [if_neg hs] at h ⊢
      rcases ih (i + 1) h with ⟨h1, h2, h3, hk, h4⟩
      have hki : i < k := by
        rcases (rp_log_props fs (i + 1)).1 k h1 with ⟨_, hle, _⟩
        omega
      refine ⟨h1, h2, by omega, ?_⟩
      have hsub : k - i = (k - (i + 1)) + 1 := by omega
      refine ⟨by simp; omega, ?_⟩
      have : (f :: fs).get ⟨k - i, by simp; omega⟩ =
          fs.get ⟨k - (i + 1), hk⟩ := by
        simp [hsub]
      rw [this]
      exact h4

theorem rp_skip (xs ys : List RawFrame) (i : Nat)
    (h : ∀ j, i ≤ j → j < i + xs.length → shouldSample j = false) :
    receive_and_process_decoded_frames i (xs ++ ys) =
      receive_and_process_decoded_frames (i + xs.length) ys := by
  induction xs generalizing i with
  | nil => simp [receive_and_process_decoded_frames]
  | cons f fs ih =>
    rw [List.cons_append, receive_and_process_decoded_frames]
    have hs : shouldSample i = false := by
      refine h i (Nat.le_refl i) ?_
      simp
    rw [if_neg (by simp [hs])]
    rw [ih (i + 1) (by intro j hj1 hj2; refine h j (by omega) (by simp at hj2 ⊢; omega))]
    congr 1
    simp [Nat.add_comm, Nat.add_assoc, Nat.add_left_comm]

theorem shouldSample_ge (j : Nat) (h : shouldSample j = true) : 930 ≤ j := by
  unfold shouldSample at h
  simp only [Bool.and_eq_true, decide_eq_true_eq] at h
  omega

theorem classifiesBlue_true (f : RawFrame) (h : classifiesBlue f = true) :
    ∃ img, is_blue_dominant f = .ok (some img) := by
  unfold classifiesBlue at h
  cases hbd : is_blue_dominant f with
  | error e => rw [hbd] at h; simp at h
  | ok o =>
    cases o with
    | none => rw [hbd] at h; simp at h
    | some img => exact ⟨img, rfl⟩

/-- C1: during a scan the frame index starts at 0 and increases by exactly 1
per decoded frame across both the packet-feeding phase and the flush phase
(the two-phase scan equals the linear scan of all decoded frames indexed
from 0, and a no-match scan ends with the index equal to the number of
decoded frames); the classifier is invoked at most once per decoded frame
(the classification log is strictly increasing over valid frame indices) and
only at indices passing the sampling decision; and on the first positive
classification the scan returns immediately with that frame and its index,
classifying no later frame. -/
theorem claim_c1_scan_invariants (m : MediaInput) :
    extractFramesT m = receive_and_process_decoded_frames 0 (relevantFrames m) ∧
    ((extractFramesT m).res = .ok none →
      (extractFramesT m).idx = (relevantFrames m).length) ∧
    (∀ x ∈ (extractFramesT m).log, shouldSample x = true) ∧
    (∀ x ∈ (extractFramesT m).log, x < (relevantFrames m).length) ∧
    ((extractFramesT m).log.Pairwise (· < ·)) ∧
    (∀ img k, (extractFramesT m).res = .ok (some (img, k)) →
      k ∈ (extractFramesT m).log ∧ (∀ x ∈ (extractFramesT m).log, x ≤ k) ∧
      ∃ hk : k < (relevantFrames m).length,
        is_blue_dominant ((relevantFrames m).get ⟨k, hk⟩) = .ok (some img)) := by
  have he := extract_linear m
  refine ⟨he, ?_, ?_, ?_, ?_, ?_⟩
  · intro h
    rw [he] at h ⊢
    simpa using rp_idx_of_none (relevantFrames m) 0 h
  · intro x hx
    rw [he] at hx
    exact ((rp_log_props (relevantFrames m) 0).1 x hx).1
  · intro x hx
    rw [he] at hx
    have h3 := ((rp_log_props (relevantFrames m) 0).1 x hx).2.2
    omega
  · rw [he]
    exact (rp_log_props (relevantFrames m) 0).2
  · intro img k h
    rw [he] at h ⊢
    rcases rp_match (relevantFrames m) 0 img k h with ⟨h1, h2, _, hk, h4⟩
    exact ⟨h1, h2, hk, h4⟩

/-- Witness for C1: on a small concrete input (one empty relevant packet,
one packet of a foreign stream, one flush frame) the no-match final index
equals the number of decoded frames. -/
theorem claim_c1_scan_invariants_witness :
    (extractFramesT mSmall).idx = (relevantFrames mSmall).length :=
  (claim_c1_scan_invariants mSmall).2.1 (by rfl)

/-- The relevant frames of the concrete C2 input. -/
theorem relevantFrames_mC2 :
    relevantFrames mC2 =
      List.replicate 900 redFrame ++ List.replicate 31 blueFrame := rfl

/-- The concrete C2 input decodes to 931 frames. -/
theorem relevantFrames_mC2_length : (relevantFrames mC2).length = 931 := by
  rw [relevantFrames_mC2]
  simp only [List.length_append, List.length_replicate]

/-- C2: for every stream long enough to contain decoded frame 930 whose
frames 0 through 899 are not blue-dominant and whose frames from index 900
on are blue-dominant at sampled indices, the scan returns the match at frame
index 930 — the first index strictly greater than 900 divisible by 30 — and
in particular does not return index 900. -/
theorem claim_c2_first_sampled_match (m : MediaInput)
    (hlen : 931 ≤ (relevantFrames m).length)
    (_hred : ∀ f ∈ (relevantFrames m).take 900, classifiesBlue f = false)
    (hblue : ∀ i (hi : i < (relevantFrames m).length), 900 ≤ i →
      shouldSample i = true →
      classifiesBlue ((relevantFrames m).get ⟨i, hi⟩) = true) :
    (∃ img, extract_frames m = .ok (some (img, 930))) ∧
    ∀ img, extract_frames m ≠ .ok (some (img, 900)) := by
  have h930 : (930 : Nat) < (relevantFrames m).length := by omega
  have htlen : ((relevantFrames m).take 930).length = 930 := by
    simp [List.length_take]
    omega
  have hskip : receive_and_process_decoded_frames 0 (relevantFrames m) =
      receive_and_process_decoded_frames 930 ((relevantFrames m).drop 930) := by
    conv_lhs => rw [← List.take_append_drop 930 (relevantFrames m)]
    have h0 : ∀ j, 0 ≤ j → j < 0 + ((relevantFrames m).take 930).length →
        shouldSample j = false := by
      intro j _ hj2
      rw [htlen] at hj2
      cases hsb : shouldSample j with
      | false => rfl
      | true => exact absurd (shouldSample_ge j hsb) (by omega)
    rw [rp_skip ((relevantFrames m).take 930) ((relevantFrames m).drop 930) 0 h0,
      htlen]
  have hdrop : (relevantFrames m).drop 930 =
      (relevantFrames m).get ⟨930, h930⟩ :: (relevantFrames m).drop 931 := by
    rw [List.drop_eq_getElem_cons h930, List.get_eq_getElem]
  have hblue930 := hblue 930 h930 (by omega) (by decide)
  obtain ⟨img, himg⟩ := classifiesBlue_true _ hblue930
  have hrun : receive_and_process_decoded_frames 930 ((relevantFrames m).drop 930) =
      ⟨.ok (some (img, 930)), 930, [930]⟩ := by
    rw [hdrop, receive_and_process_decoded_frames,
      if_pos (by decide : shouldSample 930 = true), himg]
  have hres : extract_frames m = .ok (some (img, 930)) := by
    unfold extract_frames
    rw [extract_linear m, hskip, hrun]
  refine ⟨⟨img, hres⟩, ?_⟩
  intro img2 hcon
  rw [hres] at hcon
  simp at hcon

/-- Witness for C2: the concrete 931-frame input with 900 red frames
followed by 31 blue frames matches at frame 930, not at 900. -/
theorem claim_c2_first_sampled_match_witness :
    (∃ img, extract_frames mC2 = .ok (some (img, 930))) ∧
    ∀ img, extract_frames mC2 ≠ .ok (some (img, 900)) := by
  refine claim_c2_first_sampled_match mC2 ?_ ?_ ?_
  · simp only [relevantFrames_mC2_length]
    decide
  · intro f hf
    rw [relevantFrames_mC2,
      List.take_left' (by rw [List.length_replicate])] at hf
    rw [List.eq_of_mem_replicate hf]
    decide
  · intro i hi h900 hs
    have hlt : i < 931 := by
      have h2 := hi
      rw [relevantFrames_mC2_length] at h2
      exact h2
    have hge := shouldSample_ge i hs
    have h930 : i = 930 := by omega
    subst h930
    have hi2 : (930 : Nat) <
        (List.replicate 900 redFrame ++ List.replicate 31 blueFrame).length := hi
    show classifiesBlue
      ((List.replicate 900 redFrame ++ List.replicate 31 blueFrame).get
        ⟨930, hi2⟩) = true
    rw [List.get_eq_getElem]
    rw [List.getElem_append_right (by simp only [List.length_replicate]; omega)]
    simp only [List.length_replicate]
    rw [List.getElem_replicate]
    decide

/-! Helper lemmas for the classifier claims. -/

theorem blue_fraction_iff (b t : Nat) (hbt : b ≤ t) :
    (4 * t < 5 * b) ↔ (8 : ℚ) / 10 < (b : ℚ) / (t : ℚ) := by
  rcases Nat.eq_zero_or_pos t with rfl | ht
  · have hb : b = 0 := Nat.le_zero.mp hbt
    subst hb
    norm_num
  · have ht0 : (0 : ℚ) < (t : ℚ) := by exact_mod_cast ht
    rw [div_lt_div_iff₀ (by norm_num) ht0]
    have hcast : ((8 : ℚ) * t < b * 10) ↔ (8 * t < b * 10) := by
      constructor
      · intro h
        exact_mod_cast h
      · intro h
        exact_mod_cast h
    rw [hcast]
    omega

theorem takePixels_rep3 (r g b n k : Nat) (tail : List Nat) :
    takePixels (n + k) ((List.replicate n [r, g, b]).flatten ++ tail) =
      List.replicate n (r, g, b) ++ takePixels k tail := by
  induction n with
  | zero => simp [takePixels]
  | succ n ih =>
    rw [List.replicate_succ, List.flatten_cons, Nat.succ_add]
    rw [List.append_assoc]
    rw [show ([r, g, b] : List Nat) ++ ((List.replicate n [r, g, b]).flatten ++ tail) =
      r :: g :: b :: ((List.replicate n [r, g, b]).flatten ++ tail) from rfl]
    rw [takePixels, ih, List.replicate_succ, List.cons_append]

theorem takePixels_rep3_exact (r g b n : Nat) :
    takePixels n (List.replicate n [r, g, b]).flatten =
      List.replicate n (r, g, b) := by
  induction n with
  | zero => rfl
  | succ n ih =>
    rw [List.replicate_succ, List.flatten_cons]
    rw [show ([r, g, b] : List Nat) ++ (List.replicate n [r, g, b]).flatten =
      r :: g :: b :: (List.replicate n [r, g, b]).flatten from rfl]
    rw [takePixels, ih, List.replicate_succ]

theorem repJoin_length (n : Nat) (p : List Nat) :
    (repJoin n p).length = n * p.length := by
  induction n with
  | zero => simp [repJoin]
  | succ n ih =>
    unfold repJoin at ih ⊢
    rw [List.replicate_succ, List.flatten_cons, List.length_append, ih,
      Nat.succ_mul, Nat.add_comm]

theorem from_raw_frame800 :
    from_raw frame800.width frame800.height frame800.data =
      some ⟨1000, 1,
        List.replicate 800 (0, 0, 255) ++ List.replicate 200 (255, 0, 0)⟩ := by
  show from_raw 1000 1 frame800.data = _
  have hlen : frame800.data.length = 3000 := by
    show (repJoin 800 bluePix ++ repJoin 200 redPix).length = 3000
    rw [List.length_append, repJoin_length, repJoin_length]
    rfl
  have hpix : takePixels (1000 * 1) frame800.data =
      List.replicate 800 (0, 0, 255) ++ List.replicate 200 (255, 0, 0) := by
    show takePixels (800 + 200)
      ((List.replicate 800 [0, 0, 255]).flatten ++ repJoin 200 redPix) = _
    rw [takePixels_rep3]
    show List.replicate 800 (0, 0, 255) ++
      takePixels 200 (List.replicate 200 [255, 0, 0]).flatten = _
    rw [takePixels_rep3_exact]
  unfold from_raw
  rw [if_pos (by rw [hlen])]
  rw [hpix]

theorem from_raw_frame801 :
    from_raw frame801.width frame801.height frame801.data = some img801 := by
  show from_raw 1000 1 frame801.data = _
  have hlen : frame801.data.length = 3000 := by
    show (repJoin 801 bluePix ++ repJoin 199 redPix).length = 3000
    rw [List.length_append, repJoin_length, repJoin_length]
    rfl
  have hpix : takePixels (1000 * 1) frame801.data =
      List.replicate 801 (0, 0, 255) ++ List.replicate 199 (255, 0, 0) := by
    show takePixels (801 + 199)
      ((List.replicate 801 [0, 0, 255]).flatten ++ repJoin 199 redPix) = _
    rw [takePixels_rep3]
    show List.replicate 801 (0, 0, 255) ++
      takePixels 199 (List.replicate 199 [255, 0, 0]).flatten = _
    rw [takePixels_rep3_exact]
  unfold from_raw
  rw [if_pos (by rw [hlen])]
  rw [hpix]
  rfl

/-- The 800-blue-pixel frame classifies as no match. -/
theorem is_blue_frame800 : is_blue_dominant frame800 = .ok none := by
  unfold is_blue_dominant
  rw [from_raw_frame800]
  dsimp only
  rw [if_neg]
  intro hc
  rw [List.filter_append, List.filter_replicate, List.filter_replicate] at hc
  rw [if_pos (by decide), if_neg (by decide)] at hc
  simp only [List.length_append, List.length_replicate, List.length_nil] at hc
  omega

/-- The 801-blue-pixel frame classifies as a match. -/
theorem is_blue_frame801 : is_blue_dominant frame801 = .ok (some img801) := by
  unfold is_blue_dominant
  rw [from_raw_frame801]
  dsimp only
  rw [if_pos]
  show 4 * img801.pixels.length < 5 * (img801.pixels.filter isBluePixel).length
  rw [show img801.pixels =
    List.replicate 801 ((0 : Nat), (0 : Nat), (255 : Nat)) ++
      List.replicate 199 ((255 : Nat), (0 : Nat), (0 : Nat)) from rfl]
  rw [List.filter_append, List.filter_replicate, List.filter_replicate]
  rw [if_pos (by decide), if_neg (by decide)]
  simp only [List.length_append, List.length_replicate, List.length_nil]
  omega

/-- C3: the classifier counts exactly the pixels with blue > 230, red < 180
and green < 235, and returns the frame as a positive match iff the fraction
of such pixels over all pixels strictly exceeds 0.8 (otherwise it returns no
match); a 1000-pixel frame with exactly 800 qualifying pixels (80.0%) yields
no match, and one with exactly 801 qualifying pixels (80.1%) yields a
match. -/
theorem claim_c3_classifier_threshold :
    (∀ (f : RawFrame) (img : RgbImage),
      from_raw f.width f.height f.data = some img →
      ((is_blue_dominant f = .ok (some img) ↔
        (8 : ℚ) / 10 <
          (((img.pixels.filter (fun p =>
            decide (230 < p.2.2) && decide (p.1 < 180) &&
              decide (p.2.1 < 235))).length : ℚ) /
            (img.pixels.length : ℚ))) ∧
       (is_blue_dominant f = .ok none ↔
        ¬ (8 : ℚ) / 10 <
          (((img.pixels.filter (fun p =>
            decide (230 < p.2.2) && decide (p.1 < 180) &&
              decide (p.2.1 < 235))).length : ℚ) /
            (img.pixels.length : ℚ))))) ∧
    is_blue_dominant frame800 = .ok none ∧
    is_blue_dominant frame801 = .ok (some img801) := by
  refine ⟨?_, is_blue_frame800, is_blue_frame801⟩
  intro f img h
  have hkey : is_blue_dominant f =
      (if 4 * img.pixels.length < 5 * (img.pixels.filter isBluePixel).length
        then .ok (some img) else .ok none) := by
    unfold is_blue_dominant
    rw [h]
  have hfil : img.pixels.filter (fun p =>
      decide (230 < p.2.2) && decide (p.1 < 180) && decide (p.2.1 < 235)) =
      img.pixels.filter isBluePixel := rfl
  rw [hfil, hkey]
  rw [← blue_fraction_iff _ _ (List.length_filter_le isBluePixel img.pixels)]
  by_cases hc :
      4 * img.pixels.length < 5 * (img.pixels.filter isBluePixel).length
  · rw [if_pos hc]
    constructor
    · exact ⟨fun _ => hc, fun _ => rfl⟩
    · constructor
      · intro hbad
        exact absurd hbad (by simp)
      · intro hbad
        exact absurd hc hbad
  · rw [if_neg hc]
    constructor
    · constructor
      · intro hbad
        exact absurd hbad (by simp)
      · intro hcc
        exact absurd hcc hc
    · exact ⟨fun _ => hc, fun _ => rfl⟩

/-- Witness for C3: instantiating the general threshold equivalence at the
concrete 801-blue-pixel frame, whose successful conversion and positive
classification are discharged concretely, yields that its blue fraction
exceeds 0.8. -/
theorem claim_c3_classifier_threshold_witness :
    (8 : ℚ) / 10 <
      (((img801.pixels.filter (fun p =>
        decide (230 < p.2.2) && decide (p.1 < 180) &&
          decide (p.2.1 < 235))).length : ℚ) /
        (img801.pixels.length : ℚ)) :=
  ((claim_c3_classifier_threshold.1 frame801 img801 from_raw_frame801).1).mp
    claim_c3_classifier_threshold.2.2

/-! Helper lemmas for the episode matcher. -/

theorem foldl_argAux_eq {α : Type} (f : α → Nat) (xs : List α) (a : α) :
    List.foldl (List.argAux fun b c => f b < f c) (some a) xs =
      some (xs.foldl (fun acc y => if f y < f acc then y else acc) a) := by
  induction xs generalizing a with
  | nil => rfl
  | cons y ys ih =>
    rw [List.foldl_cons, List.foldl_cons]
    have ha : List.argAux (fun b c => f b < f c) (some a) y =
        some (if f y < f a then y else a) := by
      show (if f y < f a then some y else some a) =
        some (if f y < f a then y else a)
      by_cases hxy : f y < f a
      · rw [if_pos hxy, if_pos hxy]
      · rw [if_neg hxy, if_neg hxy]
    rw [ha]
    exact ih _

theorem minByKey_eq_argmin {α : Type} (f : α → Nat) (l : List α) :
    minByKey f l = l.argmin f := by
  cases l with
  | nil => rfl
  | cons x xs =>
    unfold minByKey List.argmin
    rw [List.foldl_cons]
    rw [show List.argAux (fun b c => f b < f c) none x = some x from rfl]
    rw [foldl_argAux_eq]

/-- C4: for every non-empty catalog and candidate text, the matcher returns
a catalog entry whose name is at minimal Levenshtein distance from the
candidate, and among the entries attaining the minimum it returns the first
in catalog order (the index of the first occurrence of the returned entry is
not larger than that of any other minimum-attaining entry). -/
theorem claim_c4_matcher_min (candiate_name : String) (episodes : List Episode)
    (h : episodes ≠ []) :
    ∃ e, get_corrected_episode_name candiate_name episodes = some e ∧
      e ∈ episodes ∧
      (∀ e2 ∈ episodes,
        levenshtein e.name.data candiate_name.data ≤
          levenshtein e2.name.data candiate_name.data) ∧
      ∀ e2 ∈ episodes,
        levenshtein e2.name.data candiate_name.data =
          levenshtein e.name.data candiate_name.data →
        episodes.indexOf e ≤ episodes.indexOf e2 := by
  have harg : get_corrected_episode_name candiate_name episodes =
      episodes.argmin (fun ep => levenshtein ep.name.data candiate_name.data) :=
    minByKey_eq_argmin _ episodes
  cases hres : episodes.argmin
      (fun ep => levenshtein ep.name.data candiate_name.data) with
  | none => exact absurd (List.argmin_eq_none.mp hres) h
  | some e =>
    have hmem : e ∈ episodes.argmin
        (fun ep => levenshtein ep.name.data candiate_name.data) := by
      rw [hres]
      rfl
    refine ⟨e, by rw [harg, hres], List.argmin_mem hmem, ?_, ?_⟩
    · intro e2 he2
      exact List.le_of_mem_argmin he2 hmem
    · intro e2 he2 heq
      exact List.index_of_argmin hmem he2 (le_of_eq heq)

/-- Witness for C4: on the concrete catalog with entries named "ab" and "b"
and the candidate "ab", the matcher returns a minimizing entry that is first
among ties. -/
theorem claim_c4_matcher_min_witness :
    ∃ e, get_corrected_episode_name "ab" [epAB, epB] = some e ∧
      e ∈ [epAB, epB] ∧
      (∀ e2 ∈ [epAB, epB],
        levenshtein e.name.data ("ab" : String).data ≤
          levenshtein e2.name.data ("ab" : String).data) ∧
      ∀ e2 ∈ [epAB, epB],
        levenshtein e2.name.data ("ab" : String).data =
          levenshtein e.name.data ("ab" : String).data →
        List.indexOf e [epAB, epB] ≤ List.indexOf e2 [epAB, epB] :=
  claim_c4_matcher_min "ab" [epAB, epB] (by simp)

/-- C5 counterexample: in a two-file batch where renaming the first file
fails with an I/O error, the whole batch stops with that error, and the
second file — which alone would be renamed — is never processed; this
refutes the claim that a per-file failure is caught and never aborts the
batch. -/
theorem claim_c5_counterexample :
    rename_all [epSleepy] [fileBad, fileGood] =
      ([], some (.ioError "permission denied")) ∧
    rename_all [epSleepy] [fileGood] =
      ([("good.mp4", "Bluey - S1E1 - Sleepytime.mkv")], none) := ⟨rfl, rfl⟩

/-- C5 amended: a per-file failure in the batch rename is not caught: when
every file before f succeeds and processing f fails with error e, the batch
returns e and the remaining files are never examined (the run equals the run
with the tail removed). -/
theorem claim_c5_error_aborts_batch (episodes : List Episode)
    (pre : List BatchFile) (f : BatchFile) (rest : List BatchFile) (e : Err)
    (hf : processFile episodes f = .error e)
    (hpre : ∀ g ∈ pre, ∃ r, processFile episodes g = .ok r) :
    (rename_all episodes (pre ++ f :: rest)).2 = some e ∧
    rename_all episodes (pre ++ f :: rest) =
      rename_all episodes (pre ++ [f]) := by
  induction pre with
  | nil =>
    have h1 : rename_all episodes ([] ++ f :: rest) = ([], some e) := by
      simp only [List.nil_append, rename_all, hf]
    have h2 : rename_all episodes ([] ++ [f]) = ([], some e) := by
      simp only [List.nil_append, rename_all, hf]
    rw [h1, h2]
    exact ⟨rfl, rfl⟩
  | cons g pre ih =>
    obtain ⟨r, hr⟩ := hpre g (List.mem_cons_self g pre)
    have hpre2 : ∀ g2 ∈ pre, ∃ r2, processFile episodes g2 = .ok r2 := by
      intro g2 hg2
      exact hpre g2 (List.mem_cons_of_mem g hg2)
    cases r with
    | none =>
      simp only [List.cons_append, List.append_eq, rename_all, hr]
      exact ih hpre2
    | some x =>
      rcases ih hpre2 with ⟨ih1, ih2⟩
      simp only [List.cons_append, List.append_eq, rename_all, hr]
      exact ⟨ih1, by rw [ih2]⟩

/-- Witness for C5 (amended): the concrete batch good, bad, good stops at
the bad file's I/O error and equals the batch without the trailing file. -/
theorem claim_c5_error_aborts_batch_witness :
    (rename_all [epSleepy] ([fileGood] ++ fileBad :: [fileAvi])).2 =
      some (.ioError "permission denied") ∧
    rename_all [epSleepy] ([fileGood] ++ fileBad :: [fileAvi]) =
      rename_all [epSleepy] ([fileGood] ++ [fileBad]) :=
  claim_c5_error_aborts_batch [epSleepy] [fileGood] fileBad [fileAvi]
    (.ioError "permission denied") rfl
    (by
      intro g hg
      rw [List.mem_singleton] at hg
      subst hg
      exact ⟨some ("good.mp4", "Bluey - S1E1 - Sleepytime.mkv"), rfl⟩)

/-- C6 counterexample: two matched files with different original extensions
(.mp4 and .avi) are both renamed to the identical fixed name ending in
".mkv": the new extension is the constant "mkv", not derived from the
original file's extension family. -/
theorem claim_c6_counterexample :
    rename_all [epSleepy] [fileGood, fileAvi] =
      ([("good.mp4", "Bluey - S1E1 - Sleepytime.mkv"),
        ("good.avi", "Bluey - S1E1 - Sleepytime.mkv")], none) ∧
    ("Bluey - S1E1 - Sleepytime.mkv" : String).data.reverse.take 4 =
      ['v', 'k', 'm', '.'] ∧
    ("good.mp4" : String).data.reverse.take 4 = ['4', 'p', 'm', '.'] ∧
    ("good.avi" : String).data.reverse.take 4 = ['i', 'v', 'a', '.'] :=
  ⟨rfl, by decide, by decide, by decide⟩

/-- C6 amended: whenever the batch rename matches a file, the new file name
is "Bluey - <season_and_episode> - <name>.mkv" built from the matched
catalog entry, with the fixed extension "mkv" (not derived from the original
file's extension). -/
theorem claim_c6_new_name_template (episodes : List Episode) (f : BatchFile)
    (old new : String)
    (h : processFile episodes f = .ok (some (old, new))) :
    ∃ nm corrected, f.ocrResult = .ok nm ∧
      get_corrected_episode_name nm episodes = some corrected ∧
      f.filename = some old ∧
      new = "Bluey - " ++ corrected.season_and_episode ++ " - " ++
        corrected.name ++ ".mkv" := by
  unfold processFile at h
  cases hfn : f.filename with
  | none => rw [hfn] at h; simp at h
  | some filename =>
  rw [hfn] at h
  dsimp only at h
  cases hx : f.extractResult with
  | error e => rw [hx] at h; simp at h
  | ok o =>
  rw [hx] at h
  cases o with
  | none => simp at h
  | some fr =>
  dsimp only at h
  cases hocr : f.ocrResult with
  | error e => rw [hocr] at h; simp at h
  | ok nm =>
  rw [hocr] at h
  dsimp only at h
  cases hcor : get_corrected_episode_name nm episodes with
  | none => rw [hcor] at h; simp at h
  | some corrected =>
  rw [hcor] at h
  dsimp only at h
  cases hrn : f.renameResult with
  | error e => rw [hrn] at h; simp at h
  | ok u =>
  rw [hrn] at h
  dsimp only at h
  simp only [Except.ok.injEq, Option.some.injEq, Prod.mk.injEq] at h
  rcases h with ⟨h1, h2⟩
  refine ⟨nm, corrected, rfl, hcor, ?_, h2.symm⟩
  rw [h1]

/-- Witness for C6 (amended): the concrete renamed .mp4 file's new name
follows the fixed template with extension "mkv". -/
theorem claim_c6_new_name_template_witness :
    ∃ nm corrected, fileGood.ocrResult = .ok nm ∧
      get_corrected_episode_name nm [epSleepy] = some corrected ∧
      fileGood.filename = some "good.mp4" ∧
      "Bluey - S1E1 - Sleepytime.mkv" =
        "Bluey - " ++ corrected.season_and_episode ++ " - " ++
          corrected.name ++ ".mkv" :=
  claim_c6_new_name_template [epSleepy] fileGood "good.mp4"
    "Bluey - S1E1 - Sleepytime.mkv" rfl

/-- C7 counterexample: with OCR returning the two candidate lines "AB" and
"X", the caller returns "AB" directly instead of deferring the two-line case
to the disambiguation step (which here would fail), because lines of length
at most 1 are discarded first; and with the single candidate line "X" it
fails with NoTextDetected instead of using that line directly. -/
theorem claim_c7_counterexample :
    get_episode_name (fun _ => .error .promptFailed) [some "AB", some "X"] =
      .ok "AB" ∧
    get_episode_name (fun _ => .error .promptFailed) [some "X"] =
      .error .noTextDetected := ⟨rfl, rfl⟩

/-- C7 amended: the zero/one/many policy applies to the candidate lines that
remain after discarding lines of UTF-8 byte length at most 1: none left
fails with NoTextDetected, exactly one left is used directly, two or more
left are passed to the external disambiguation step. -/
theorem claim_c7_line_policy (choose : List String → Except Err String)
    (lineTexts : List (Option String)) :
    (filteredLines lineTexts = [] →
      get_episode_name choose lineTexts = .error .noTextDetected) ∧
    (∀ t, filteredLines lineTexts = [t] →
      get_episode_name choose lineTexts = .ok t) ∧
    (2 ≤ (filteredLines lineTexts).length →
      get_episode_name choose lineTexts = choose (filteredLines lineTexts)) := by
  unfold get_episode_name
  cases hl : filteredLines lineTexts with
  | nil =>
    refine ⟨fun _ => rfl, ?_, ?_⟩
    · intro t ht
      exact absurd ht (by simp)
    · intro h2
      exact absurd h2 (by simp)
  | cons a as =>
    cases as with
    | nil =>
      refine ⟨?_, ?_, ?_⟩
      · intro hbad
        exact absurd hbad (by simp)
      · intro t ht
        simp only [List.cons.injEq] at ht
        rw [ht.1]
      · intro h2
        exact absurd h2 (by simp)
    | cons b bs =>
      refine ⟨?_, ?_, ?_⟩
      · intro hbad
        exact absurd hbad (by simp)
      · intro t ht
        exact absurd ht (by simp)
      · intro h2
        rfl

/-- Witness for C7 (amended): with two retained lines the caller invokes the
disambiguation strategy on exactly those lines. -/
theorem claim_c7_line_policy_witness :
    get_episode_name chooseCanned [some "AB", some "CD"] =
      chooseCanned (filteredLines [some "AB", some "CD"]) :=
  (claim_c7_line_policy chooseCanned [some "AB", some "CD"]).2.2 (by decide)

/-- C8 counterexample: a 1-by-1 frame with a 4-byte buffer has a buffer
length different from width * height * 3, yet classification proceeds
without a conversion error (the underlying image construction accepts any
buffer at least as large as needed), refuting the stated "if and only
if". -/
theorem claim_c8_counterexample :
    frameExtra.data.length ≠ frameExtra.width * frameExtra.height * 3 ∧
    is_blue_dominant frameExtra = .ok (some imgTiny) := ⟨by decide, rfl⟩

/-- C8 amended: the classifier fails with a conversion error iff the raw
buffer is too short (length < width * height * 3); every buffer of length
exactly width * height * 3 (and any longer buffer) is classified without
this error. -/
theorem claim_c8_conversion_error (f : RawFrame) :
    ((∃ e, is_blue_dominant f = .error e) ↔
      f.data.length < f.width * f.height * 3) ∧
    (f.data.length = f.width * f.height * 3 →
      ∀ e, is_blue_dominant f ≠ .error e) := by
  have hmain : (∃ e, is_blue_dominant f = .error e) ↔
      f.data.length < f.width * f.height * 3 := by
    unfold is_blue_dominant from_raw
    by_cases hle : f.width * f.height * 3 ≤ f.data.length
    · rw [if_pos hle]
      dsimp only
      constructor
      · rintro ⟨e, he⟩
        split at he
        · exact absurd he (by simp)
        · exact absurd he (by simp)
      · intro hlt
        omega
    · rw [if_neg hle]
      dsimp only
      constructor
      · intro _
        omega
      · intro _
        exact ⟨.convError, rfl⟩
  refine ⟨hmain, ?_⟩
  intro heq e he
  have hlt := hmain.mp ⟨e, he⟩
  omega

/-- Witness for C8 (amended): a well-sized 3-byte 1-by-1 buffer is
classified without a conversion error. -/
theorem claim_c8_conversion_error_witness :
    ∀ e, is_blue_dominant blueFrame ≠ .error e :=
  (claim_c8_conversion_error blueFrame).2 rfl

/-- C9 counterexample: invoked from the batch rename with an empty catalog,
the matcher returns no entry, and the caller's unwrap panics instead of
failing with a NotFound error. -/
theorem claim_c9_counterexample :
    get_corrected_episode_name "Sleepytime" [] = none ∧
    processFile [] fileGood =
      .error (.panicked ("called Option::unwrap() on a None value")) ∧
    processFile [] fileGood ≠ .error .notFound := ⟨rfl, rfl, by decide⟩

/-- C9 amended: on an empty catalog the matcher itself returns no entry
(None) and does not crash; the episode-name command converts this into a
NotFound ("No episode found") error; but the batch-rename caller unwraps the
None and panics rather than failing with NotFound. -/
theorem claim_c9_empty_catalog (candiate_name : String) (f : BatchFile)
    (env : EpisodeNameEnv) (out : String)
    (hfn : ∃ n, f.filename = some n)
    (hx : ∃ fr, f.extractResult = .ok (some fr))
    (hocr : ∃ nm, f.ocrResult = .ok nm)
    (henvx : ∃ fr, env.extractResult = .ok (some fr))
    (hsave : env.saveResult = .ok ())
    (henvocr : ∃ nm, env.ocrResult = .ok nm)
    (hcat : env.episodesResult = .ok []) :
    get_corrected_episode_name candiate_name [] = none ∧
    processFile [] f =
      .error (.panicked ("called Option::unwrap() on a None value")) ∧
    (episode_name env out).2 = .error .notFound := by
  obtain ⟨n, hn⟩ := hfn
  obtain ⟨fr, hfr⟩ := hx
  obtain ⟨nm, hnm⟩ := hocr
  obtain ⟨fr2, hfr2⟩ := henvx
  obtain ⟨nm2, hnm2⟩ := henvocr
  refine ⟨rfl, ?_, ?_⟩
  · unfold processFile
    rw [hn, hfr, hnm]
    rfl
  · unfold episode_name
    rw [hfr2, hsave, hnm2, hcat]
    rfl

/-- Witness for C9 (amended): the concrete empty-catalog batch file panics
while the concrete empty-catalog episode-name run fails with NotFound. -/
theorem claim_c9_empty_catalog_witness :
    get_corrected_episode_name "Sleepytime" [] = none ∧
    processFile [] fileGood =
      .error (.panicked ("called Option::unwrap() on a None value")) ∧
    (episode_name envEmptyCat "frame.png").2 = .error .notFound :=
  claim_c9_empty_catalog "Sleepytime" fileGood envEmptyCat "frame.png"
    ⟨"good.mp4", rfl⟩ ⟨(imgTiny, 930), rfl⟩ ⟨"Sleepytime", rfl⟩
    ⟨(imgTiny, 930), rfl⟩ rfl ⟨"Sleepytime", rfl⟩ rfl

/-- C10: in the episode-name operation, when the scan finds a matching frame
(and the save itself succeeds) the frame is written to the caller's output
path as the first completed side effect, before OCR and catalog matching
run; when OCR or matching subsequently fails, the operation returns that
error while the trace already contains the completed write (the write is not
rolled back). -/
theorem claim_c10_save_before_ocr (env : EpisodeNameEnv) (output : String)
    (hx : ∃ fr, env.extractResult = .ok (some fr))
    (hs : env.saveResult = .ok ()) :
    (episode_name env output).1.head? = some (Ev.savedFrame output) ∧
    (∀ e, env.ocrResult = .error e →
      episode_name env output = ([Ev.savedFrame output], .error e)) ∧
    (∀ nm, env.ocrResult = .ok nm → ∀ e, env.episodesResult = .error e →
      episode_name env output =
        ([Ev.savedFrame output, Ev.ranOcr], .error e)) ∧
    (∀ nm, env.ocrResult = .ok nm → env.episodesResult = .ok [] →
      episode_name env output =
        ([Ev.savedFrame output, Ev.ranOcr], .error .notFound)) := by
  obtain ⟨fr, hfr⟩ := hx
  unfold episode_name
  rw [hfr, hs]
  dsimp only
  refine ⟨?_, ?_, ?_, ?_⟩
  · cases ho : env.ocrResult with
    | error e => rfl
    | ok nm =>
      cases hep : env.episodesResult with
      | error e => rfl
      | ok eps =>
        dsimp only
        cases hmk : minByKey
            (fun episode => normalized_levenshtein_as_usize episode.name nm)
            eps with
        | none => rfl
        | some x => rfl
  · intro e he
    rw [he]
  · intro nm hnm e he
    rw [hnm, he]
  · intro nm hnm hep
    rw [hnm, hep]
    rfl

/-- Witness for C10: a concrete environment whose OCR fails after a
successful match and save returns the OCR error with the frame already
written. -/
theorem claim_c10_save_before_ocr_witness :
    episode_name envOcrFail "frame.png" =
      ([Ev.savedFrame "frame.png"], .error .noTextDetected) :=
  (claim_c10_save_before_ocr envOcrFail "frame.png"
    ⟨(imgTiny, 930), rfl⟩ rfl).2.1 .noTextDetected rfl

end VideoNamer
